import Mathlib

/-!
Verification of `src/Kiro/generate_skills_and_agents.py`.

The script is a batch transform: it reads agent JSON records from a
directory, writes one SKILL.md documentation file per agent, and rewrites
each agent record with a trimmed prompt, a resolved MCP-server mapping,
a disabled `includeMcpJson` flag and two resource locators.

Embedding notes:
* Python dicts with string keys are modeled as ordered association lists
  `List (String × α)`; Python dict assignment `d[k] = v` is `dictInsert`
  (replace in place when the key exists, append otherwise), and
  `d.get(k, default)` is `(List.lookup k d).getD default`.
* Python `d[k]` indexing raises `KeyError` on a missing key, so functions
  performing it are `Option`-valued (`none` models the fault).
* Python string slicing `s[:n]` and `str.replace` act on characters, so
  they are modeled on `String.data : List Char`.
* `dict.copy()` produces an equal value; in this pure value model copying
  is the identity.  The aliasing consequences of shallow copying are
  modeled separately in the `Alias` namespace with an explicit heap of
  list and env objects.
-/

/-- One MCP server descriptor: launch command, argument list and optional
environment mapping (source lines 14-55, the values of `MCP_SERVERS`). -/
structure McpServer where
  command : String
  args : List String
  env : Option (List (String × String))
  deriving DecidableEq, Repr

/-- The static `MCP_SERVERS` table, source lines 14-55, in source order. -/
def MCP_SERVERS : List (String × McpServer) :=
  [("filesystem",
    ⟨"npx", ["-y", "@modelcontextprotocol/server-filesystem", "$HOME"], none⟩),
   ("memory",
    ⟨"npx", ["-y", "@modelcontextprotocol/server-memory"], none⟩),
   ("context7",
    ⟨"npx", ["-y", "@upstash/context7-mcp@latest"], none⟩),
   ("sequential-thinking",
    ⟨"npx", ["-y", "@modelcontextprotocol/server-sequential-thinking"], none⟩),
   ("puppeteer",
    ⟨"npx", ["-y", "@modelcontextprotocol/server-puppeteer"], none⟩),
   ("playwright",
    ⟨"npx", ["-y", "@playwright/mcp"], none⟩),
   ("dynamodb",
    ⟨"uvx", ["awslabs.dynamodb-mcp-server@latest"],
     some [("AWS_REGION", "ap-southeast-2"), ("AWS_PROFILE", "default"),
           ("DDB-MCP-READONLY", "false")]⟩),
   ("aws-kb",
    ⟨"npx", ["-y", "@modelcontextprotocol/server-aws-kb-retrieval"],
     some [("AWS_PROFILE", "default")]⟩)]

/-- The static `AGENT_MCPS` table, source lines 58-77: per-agent extra MCP
server names beyond the common filesystem + memory. -/
def AGENT_MCPS : List (String × List String) :=
  [("architecture-expert", ["context7", "sequential-thinking", "aws-kb"]),
   ("cdk-expert-ts", ["context7", "aws-kb"]),
   ("cdk-expert-python", ["context7", "aws-kb"]),
   ("code-reviewer", []),
   ("data-scientist", ["context7", "dynamodb", "aws-kb"]),
   ("devops-engineer", ["context7", "playwright"]),
   ("documentation-engineer", ["context7"]),
   ("frontend-engineer-ts", ["context7"]),
   ("frontend-engineer-dart", ["context7"]),
   ("linux-specialist", []),
   ("product-manager", []),
   ("project-coordinator", []),
   ("python-backend", ["context7", "dynamodb", "aws-kb"]),
   ("python-test-engineer", ["context7", "dynamodb"]),
   ("security-specialist", ["context7", "sequential-thinking", "aws-kb"]),
   ("test-coordinator", ["playwright"]),
   ("typescript-test-engineer",
    ["context7", "sequential-thinking", "puppeteer", "playwright"]),
   ("ui-ux-designer", ["context7", "puppeteer"])]

/-- The static `BRIEF_PROMPTS` table, source lines 80-99. -/
def BRIEF_PROMPTS : List (String × String) :=
  [("architecture-expert", "You are a pragmatic AWS solutions architect. Follow the detailed guidelines in your skill resource for security, scalability, cost-effectiveness, and caching strategies."),
   ("cdk-expert-ts", "You are an AWS CDK expert specializing in TypeScript infrastructure as code. Follow the detailed guidelines in your skill resource."),
   ("cdk-expert-python", "You are an AWS CDK expert specializing in Python infrastructure as code. Follow the detailed guidelines in your skill resource."),
   ("code-reviewer", "You are a senior engineer reviewing for security, architecture, and unnecessary complexity. Follow the detailed guidelines in your skill resource."),
   ("data-scientist", "You are a data scientist and data engineer with deep expertise in AWS data services, big data processing, and machine learning. Follow the detailed guidelines in your skill resource."),
   ("devops-engineer", "You are a DevOps engineer specializing in secure CI/CD pipelines, load testing, and monitoring. Follow the detailed guidelines in your skill resource."),
   ("documentation-engineer", "You are a documentation engineer focused on clear, concise, up-to-date documentation. Follow the detailed guidelines in your skill resource."),
   ("frontend-engineer-ts", "You are a frontend engineer focused on simple, clean React with TypeScript. Follow the detailed guidelines in your skill resource."),
   ("frontend-engineer-dart", "You are a frontend engineer focused on clean, idiomatic Flutter and Dart. Follow the detailed guidelines in your skill resource."),
   ("linux-specialist", "You are a Linux SME with deep command line, git, and containerization expertise. Follow the detailed guidelines in your skill resource."),
   ("product-manager", "You are a product manager focused on spec-driven development and feature preservation. Follow the detailed guidelines in your skill resource."),
   ("project-coordinator", "You are a project coordinator responsible for maintaining project context and orchestrating agent collaboration. Follow the detailed guidelines in your skill resource."),
   ("python-backend", "You are a Senior Python 3.12 backend engineer focused on clean, typed, functional code with database expertise. Follow the detailed guidelines in your skill resource."),
   ("python-test-engineer", "You are a Python test engineer writing pragmatic pytest tests and enforcing code standards. Follow the detailed guidelines in your skill resource."),
   ("security-specialist", "You are a senior application security engineer specializing in secure development, threat modeling, and cloud security hardening. Follow the detailed guidelines in your skill resource."),
   ("test-coordinator", "You are a test coordinator enforcing test-driven development and quality standards. Follow the detailed guidelines in your skill resource."),
   ("typescript-test-engineer", "You are a TypeScript test engineer for pragmatic testing and code quality. Follow the detailed guidelines in your skill resource."),
   ("ui-ux-designer", "You are a UI/UX designer focused on intuitive, beautiful, accessible interfaces. Follow the detailed guidelines in your skill resource.")]

/-- Python dict assignment `d[k] = v` on an insertion-ordered dict: replace
the value in place when the key exists, append the pair otherwise. -/
def dictInsert {α : Type} (k : String) (v : α) (d : List (String × α)) :
    List (String × α) :=
  if d.any (fun p => p.1 == k) then
    d.map (fun p => if p.1 == k then (k, v) else p)
  else
    d ++ [(k, v)]

/-- The list of extra MCP names for an agent:
`AGENT_MCPS.get(agent_name, [])`, source line 121. -/
def agentExtras (agent_name : String) : List String :=
  (List.lookup agent_name AGENT_MCPS).getD []

/-- One iteration of the extras loop, source lines 122-126:
`servers[mcp_name] = MCP_SERVERS[mcp_name].copy()`.  Indexing a missing
key raises `KeyError`, hence the `Option`.  `.copy()` and the deep copy
of `env` (lines 125-126) are the identity on values in this pure model;
aliasing is treated in the `Alias` namespace. -/
def insertServer (servers : List (String × McpServer)) (mcp_name : String) :
    Option (List (String × McpServer)) := do
  let d ← List.lookup mcp_name MCP_SERVERS
  pure (dictInsert mcp_name d servers)

/-- `build_mcp_servers`, source lines 113-128.  Python `MCP_SERVERS[...]`
indexing raises on a missing key, hence the `Option` result. -/
def build_mcp_servers (agent_name : String) :
    Option (List (String × McpServer)) := do
  let fs ← List.lookup "filesystem" MCP_SERVERS
  let mem ← List.lookup "memory" MCP_SERVERS
  let servers := dictInsert "memory" mem (dictInsert "filesystem" fs [])
  let extra_mcps := agentExtras agent_name
  extra_mcps.foldlM insertServer servers

/-- Python string slicing `s[:n]`: the first `n` characters. -/
def strSlice (s : String) (n : Nat) : String := String.mk (s.data.take n)

/-- The brief prompt of source line 160:
`BRIEF_PROMPTS.get(agent_name, agent["prompt"][:200])`. -/
def brief_prompt (agent_name : String) (prompt : String) : String :=
  (List.lookup agent_name BRIEF_PROMPTS).getD (strSlice prompt 200)

/-- `generate_skill_md`, source lines 102-110: the f-string
`---\nname: {name}\ndescription: {description}\n---\n\n{prompt_content}\n`. -/
def generate_skill_md (name description prompt_content : String) : String :=
  "---\nname: " ++ name ++ "\ndescription: " ++ description ++ "\n---\n\n"
    ++ prompt_content ++ "\n"

/-- The fields of an agent record that `process_agents` reads from the
JSON file (source lines 147-151 and 160-167). -/
structure Agent where
  name : String
  description : String
  prompt : String
  tools : List String
  allowedTools : List String
  deriving DecidableEq, Repr

/-- The `updated_agent` dict built at source lines 163-175, with exactly
its eight fields in source order. -/
structure UpdatedAgent where
  name : String
  description : String
  tools : List String
  allowedTools : List String
  prompt : String
  includeMcpJson : Bool
  mcpServers : List (String × McpServer)
  resources : List String
  deriving DecidableEq, Repr

/-- The `mcpServers` value stored in the rewritten record.  By
`build_mcp_servers_total` below the lookup never faults, so the default
is never taken. -/
def mcpServersOf (agent_name : String) : List (String × McpServer) :=
  (build_mcp_servers agent_name).getD []

/-- The record rewrite of source lines 163-175: the `updated_agent` dict
written back over the JSON file of the agent. -/
def update_agent (agent_name : String) (agent : Agent) : UpdatedAgent :=
  { name := agent.name
    description := agent.description
    tools := agent.tools
    allowedTools := agent.allowedTools
    prompt := brief_prompt agent_name agent.prompt
    includeMcpJson := false
    mcpServers := mcpServersOf agent_name
    resources := ["file://.kiro/steering/**/*.md",
                  "skill://.kiro/skills/" ++ agent_name ++ "/SKILL.md"] }

/-- Reading a rewritten record back as input for the next run: a later
`json.load` reads the fields name, description, prompt, tools and
allowedTools out of the stored dict (source lines 140-151, 160-167). -/
def asInput (u : UpdatedAgent) : Agent :=
  { name := u.name
    description := u.description
    prompt := u.prompt
    tools := u.tools
    allowedTools := u.allowedTools }

/-- The SKILL.md content written for one agent record,
source lines 147-151. -/
def skill_content (agent : Agent) : String :=
  generate_skill_md agent.name agent.description agent.prompt

/-- Python `str.replace(pat, repl)` on character lists, restricted to a
non-empty pattern (the script only ever uses the pattern ".json"):
scan left to right, replacing non-overlapping occurrences.  Fuel-based so
that it reduces definitionally; `List.length s` fuel is enough because
every step consumes at least one character. -/
def replaceAllFuel (pat repl : List Char) : Nat → List Char → List Char
  | _, [] => []
  | 0, s => s
  | fuel + 1, c :: rest =>
    if pat ≠ [] ∧ pat.isPrefixOf (c :: rest) then
      repl ++ replaceAllFuel pat repl fuel (List.drop pat.length (c :: rest))
    else
      c :: replaceAllFuel pat repl fuel rest

/-- Python `s.replace(pat, repl)` for a non-empty `pat`. -/
def pyReplace (s pat repl : String) : String :=
  String.mk (replaceAllFuel pat.data repl.data s.data.length s.data)

/-- The agent identifier of source line 137:
`filename.replace(".json", "")` — every occurrence removed, not just a
final suffix. -/
def agent_name_of (filename : String) : String :=
  pyReplace filename ".json" ""

/-- Python `filename.endswith(".json")`, the filter at source line 134. -/
def isJsonFile (filename : String) : Bool :=
  List.isSuffixOf ".json".data filename.data

/-- What one loop iteration of `process_agents` (source lines 133-179)
leaves in the agents directory for one file: `.json` files are rewritten
in place, every other file is untouched. -/
def stepRecord (e : String × Agent) : String × Agent :=
  if isJsonFile e.1 then
    (e.1, asInput (update_agent (agent_name_of e.1) e.2))
  else e

/-- The agents directory after a run of `process_agents`. -/
def newDirectory (es : List (String × Agent)) : List (String × Agent) :=
  es.map stepRecord

/-- The rewritten agent records a run of `process_agents` writes, in
directory order, keyed by filename (source lines 177-179). -/
def writtenRecords (es : List (String × Agent)) :
    List (String × UpdatedAgent) :=
  es.filterMap (fun e =>
    if isJsonFile e.1 then
      some (e.1, update_agent (agent_name_of e.1) e.2)
    else none)

/-- The SKILL.md files a run of `process_agents` writes, in directory
order, keyed by agent identifier (source lines 144-155). -/
def skillFiles (es : List (String × Agent)) : List (String × String) :=
  es.filterMap (fun e =>
    if isJsonFile e.1 then
      some (agent_name_of e.1, skill_content e.2)
    else none)

/-- `process_agents`, source lines 131-182, as a pure transform on the
directory contents (filename, parsed record): the resulting directory,
the records written, and the SKILL.md files written. -/
def process_agents (es : List (String × Agent)) :
    List (String × Agent) × List (String × UpdatedAgent)
      × List (String × String) :=
  (newDirectory es, writtenRecords es, skillFiles es)

/-- The stem of a filename in the sense of claim C10: the name with one
final ".json" suffix stripped (what `filename.replace(".json", "")` is
compared against for filenames containing ".json" more than once). -/
def stem_of (fn : String) : String :=
  String.mk (fn.data.take (fn.data.length - ".json".data.length))

namespace Alias

/-!
Object-identity model of `build_mcp_servers` (source lines 113-128).
In CPython, `MCP_SERVERS[name].copy()` is a shallow copy: the new dict
holds the same `args` list object as the table entry, while lines
125-126 explicitly copy the `env` dict.  To reason about mutation we
model the argument-list and env-dict objects in explicit heaps addressed
by `Nat` references; a descriptor holds references instead of values.
-/

/-- A capability-server descriptor as the runtime holds it: command
string, a reference to an argument-list object, and an optional
reference to an env-dict object.  A shallow `.copy()` duplicates this
record but not the objects behind the references. -/
structure SrvObj where
  command : String
  argsRef : Nat
  envRef : Option Nat
  deriving DecidableEq, Repr

/-- The argument-list objects allocated by the `MCP_SERVERS` literal
(source lines 14-55), numbered in source order. -/
def initArgsHeap : Nat → List String
  | 0 => ["-y", "@modelcontextprotocol/server-filesystem", "$HOME"]
  | 1 => ["-y", "@modelcontextprotocol/server-memory"]
  | 2 => ["-y", "@upstash/context7-mcp@latest"]
  | 3 => ["-y", "@modelcontextprotocol/server-sequential-thinking"]
  | 4 => ["-y", "@modelcontextprotocol/server-puppeteer"]
  | 5 => ["-y", "@playwright/mcp"]
  | 6 => ["awslabs.dynamodb-mcp-server@latest"]
  | _ => ["-y", "@modelcontextprotocol/server-aws-kb-retrieval"]

/-- The env-dict objects allocated by the `MCP_SERVERS` literal: ref 0
for "dynamodb", ref 1 for "aws-kb". -/
def initEnvHeap : Nat → List (String × String)
  | 0 => [("AWS_REGION", "ap-southeast-2"), ("AWS_PROFILE", "default"),
          ("DDB-MCP-READONLY", "false")]
  | 1 => [("AWS_PROFILE", "default")]
  | _ => []

/-- The `MCP_SERVERS` table with its values as reference-holding
descriptor records. -/
def MCP_SERVERS_refs : List (String × SrvObj) :=
  [("filesystem", ⟨"npx", 0, none⟩),
   ("memory", ⟨"npx", 1, none⟩),
   ("context7", ⟨"npx", 2, none⟩),
   ("sequential-thinking", ⟨"npx", 3, none⟩),
   ("puppeteer", ⟨"npx", 4, none⟩),
   ("playwright", ⟨"npx", 5, none⟩),
   ("dynamodb", ⟨"uvx", 6, some 0⟩),
   ("aws-kb", ⟨"npx", 7, some 1⟩)]

/-- The mutable object store: the argument-list heap, the env-dict heap
and the next fresh env reference. -/
structure Store where
  argsHeap : Nat → List String
  envHeap : Nat → List (String × String)
  nextEnv : Nat

/-- The store right after the module-level table literals are evaluated:
args objects 0-7 and env objects 0-1 are live. -/
def initStore : Store := ⟨initArgsHeap, initEnvHeap, 2⟩

/-- One iteration of the extras loop, source lines 122-126:
`servers[m] = MCP_SERVERS[m].copy()` shares the args reference; the
explicit `env.copy()` allocates a fresh env object with the same
contents. -/
def insertServerRef (srv : List (String × SrvObj)) (st : Store)
    (m : String) : Option (List (String × SrvObj) × Store) :=
  match List.lookup m MCP_SERVERS_refs with
  | none => none
  | some d =>
    match d.envRef with
    | none => some (dictInsert m d srv, st)
    | some r =>
      some (dictInsert m (⟨d.command, d.argsRef, some st.nextEnv⟩ : SrvObj) srv,
        ⟨st.argsHeap,
         fun x => if x = st.nextEnv then st.envHeap r else st.envHeap x,
         st.nextEnv + 1⟩)

/-- The extras loop of `build_mcp_servers` threaded through the store. -/
def foldExtras : List String → List (String × SrvObj) → Store →
    Option (List (String × SrvObj) × Store)
  | [], srv, st => some (srv, st)
  | m :: l, srv, st =>
    match insertServerRef srv st m with
    | none => none
    | some (srv2, st2) => foldExtras l srv2 st2

/-- `build_mcp_servers` in the object-identity model.  The two baseline
`.copy()` calls (lines 117-118) duplicate the descriptor records, which
carry no env reference, so they allocate nothing. -/
def build_mcp_servers_refs (agent_name : String) (st : Store) :
    Option (List (String × SrvObj) × Store) := do
  let fs ← List.lookup "filesystem" MCP_SERVERS_refs
  let mem ← List.lookup "memory" MCP_SERVERS_refs
  let servers := dictInsert "memory" mem (dictInsert "filesystem" fs [])
  foldExtras (agentExtras agent_name) servers st

/-- In-place mutation of the argument-list object behind reference `r`,
e.g. Python `servers[name]["args"].append(...)` rebinding the contents
of the object to `v`. -/
def writeArgs (st : Store) (r : Nat) (v : List String) : Store :=
  ⟨fun x => if x = r then v else st.argsHeap x, st.envHeap, st.nextEnv⟩

end Alias

/-! ## Helper lemmas -/

/-- Looking a key up in an association list with a default yields either
the default or one of the stored values. -/
lemma lookup_getD_mem {β : Type} (d : β) (a : String) :
    ∀ l : List (String × β), (List.lookup a l).getD d ∈ d :: l.map Prod.snd := by
  intro l
  induction l with
  | nil => simp [List.lookup]
  | cons p es ih =>
    obtain ⟨k, v⟩ := p
    simp only [List.lookup]
    cases h : a == k
    · simp only [h]
      rcases List.mem_cons.mp ih with h1 | h2
      · simp [h1]
      · simp [h2]
    · simp [h]

/-- The extras of any agent identifier are the empty list or one of the
values of the `AGENT_MCPS` table. -/
lemma agentExtras_mem (a : String) :
    agentExtras a ∈ ([] : List String) :: AGENT_MCPS.map Prod.snd :=
  lookup_getD_mem [] a AGENT_MCPS

/-- Every possible extras list is duplicate-free, avoids the two baseline
names, and every name in it is a key of `MCP_SERVERS`. -/
lemma extras_ok (a : String) :
    (agentExtras a).Nodup ∧ "filesystem" ∉ agentExtras a ∧
      "memory" ∉ agentExtras a ∧
      ∀ m ∈ agentExtras a, (List.lookup m MCP_SERVERS).isSome = true := by
  have hall : ∀ x ∈ ([] : List String) :: AGENT_MCPS.map Prod.snd,
      x.Nodup ∧ "filesystem" ∉ x ∧ "memory" ∉ x ∧
        ∀ m ∈ x, (List.lookup m MCP_SERVERS).isSome = true := by decide
  exact hall _ (agentExtras_mem a)

/-- Assigning a fresh key into a Python dict appends the pair. -/
lemma dictInsert_of_not_mem {α : Type} (k : String) (v : α)
    (d : List (String × α)) (h : k ∉ d.map Prod.fst) :
    dictInsert k v d = d ++ [(k, v)] := by
  unfold dictInsert
  rw [if_neg]
  intro hc
  rcases List.any_eq_true.mp hc with ⟨p, hp, he⟩
  exact h (List.mem_map.mpr ⟨p, hp, (beq_iff_eq.mp he)⟩)

/-- Folding the extras loop over fresh, duplicate-free, resolvable names
succeeds and appends exactly those names to the key sequence. -/
lemma foldlM_insertServer_spec :
    ∀ (l : List String) (srv : List (String × McpServer)),
      l.Nodup → (∀ m ∈ l, m ∉ srv.map Prod.fst) →
      (∀ m ∈ l, (List.lookup m MCP_SERVERS).isSome = true) →
      ∃ s, List.foldlM insertServer srv l = some s ∧
        s.map Prod.fst = srv.map Prod.fst ++ l := by
  intro l
  induction l with
  | nil => intro srv _ _ _; exact ⟨srv, rfl, by simp⟩
  | cons m l ih =>
    intro srv hnd hdisj hok
    obtain ⟨d, hd⟩ := Option.isSome_iff_exists.mp (hok m (by simp))
    have hfresh : m ∉ srv.map Prod.fst := hdisj m (by simp)
    have hstep : insertServer srv m = some (srv ++ [(m, d)]) := by
      unfold insertServer
      rw [hd]
      show some (dictInsert m d srv) = some (srv ++ [(m, d)])
      rw [dictInsert_of_not_mem m d srv hfresh]
    obtain ⟨hm, hnd2⟩ := List.nodup_cons.mp hnd
    obtain ⟨s, hs, hkeys⟩ := ih (srv ++ [(m, d)]) hnd2
      (by
        intro m2 hm2
        have h1 := hdisj m2 (List.mem_cons_of_mem _ hm2)
        have hne : m2 ≠ m := fun he => hm (he ▸ hm2)
        simp [h1, hne])
      (fun m2 hm2 => hok m2 (List.mem_cons_of_mem _ hm2))
    refine ⟨s, ?_, ?_⟩
    · rw [List.foldlM_cons, hstep]
      simpa using hs
    · rw [hkeys]
      simp

/-- `build_mcp_servers` is the extras fold started from the two baseline
entries (the two baseline dict assignments of lines 117-118 evaluated). -/
lemma build_mcp_servers_eq_foldlM (a : String) :
    build_mcp_servers a =
      List.foldlM insertServer
        [("filesystem",
          (⟨"npx", ["-y", "@modelcontextprotocol/server-filesystem", "$HOME"],
            none⟩ : McpServer)),
         ("memory",
          (⟨"npx", ["-y", "@modelcontextprotocol/server-memory"], none⟩ :
            McpServer))]
        (agentExtras a) := rfl

/-- For every agent identifier `build_mcp_servers` succeeds and its key
sequence is the baseline followed by the extras, without duplicates. -/
lemma build_mcp_servers_spec (a : String) :
    ∃ s, build_mcp_servers a = some s ∧
      s.map Prod.fst = "filesystem" :: "memory" :: agentExtras a ∧
      (s.map Prod.fst).Nodup := by
  obtain ⟨hnd, hfs, hmem, hok⟩ := extras_ok a
  obtain ⟨s, hs, hkeys⟩ := foldlM_insertServer_spec (agentExtras a)
    [("filesystem",
      (⟨"npx", ["-y", "@modelcontextprotocol/server-filesystem", "$HOME"],
        none⟩ : McpServer)),
     ("memory",
      (⟨"npx", ["-y", "@modelcontextprotocol/server-memory"], none⟩ :
        McpServer))]
    hnd
    (by
      intro m hm
      have h1 : m ≠ "filesystem" := fun he => hfs (he ▸ hm)
      have h2 : m ≠ "memory" := fun he => hmem (he ▸ hm)
      simp [h1, h2])
    hok
  refine ⟨s, ?_, ?_, ?_⟩
  · rw [build_mcp_servers_eq_foldlM, hs]
  · simpa using hkeys
  · have hk2 : s.map Prod.fst = "filesystem" :: "memory" :: agentExtras a := by
      simpa using hkeys
    rw [hk2]
    refine List.nodup_cons.mpr ⟨?_, List.nodup_cons.mpr ⟨hmem, hnd⟩⟩
    simp only [List.mem_cons]
    rintro (he | hin)
    · exact absurd he (by decide)
    · exact hfs hin

/-- Brief-prompt computation is idempotent: feeding a summarized prompt
back in returns it unchanged. -/
lemma brief_prompt_idem (a p : String) :
    brief_prompt a (brief_prompt a p) = brief_prompt a p := by
  unfold brief_prompt
  cases h : List.lookup a BRIEF_PROMPTS
  · show (strSlice (strSlice p 200) 200) = strSlice p 200
    unfold strSlice
    simp [List.take_take]
  · rfl

/-- Rewriting the record read back from a rewritten record reproduces the
rewritten record. -/
lemma update_agent_idem (a : String) (rec : Agent) :
    update_agent a (asInput (update_agent a rec)) = update_agent a rec := by
  unfold update_agent asInput
  simp [brief_prompt_idem]

/-- One directory entry reaches a fixed point after a single run. -/
lemma stepRecord_idem (e : String × Agent) :
    stepRecord (stepRecord e) = stepRecord e := by
  obtain ⟨fn, rec⟩ := e
  unfold stepRecord
  by_cases h : isJsonFile fn
  · simp [h, update_agent_idem]
  · simp [h]

/-- The agents directory reaches a fixed point after a single run. -/
lemma newDirectory_idem (es : List (String × Agent)) :
    newDirectory (newDirectory es) = newDirectory es := by
  unfold newDirectory
  rw [List.map_map]
  simp [Function.comp, stepRecord_idem]

/-- Membership in a Python dict after an assignment: an entry of the new
dict was already present or is the assigned pair. -/
lemma mem_dictInsert {α : Type} {k : String} {v : α} {d : List (String × α)}
    {p : String × α} (h : p ∈ dictInsert k v d) : p ∈ d ∨ p = (k, v) := by
  unfold dictInsert at h
  split at h
  · rcases List.mem_map.mp h with ⟨q, hq, he⟩
    by_cases hk : q.1 == k
    · right
      rw [if_pos hk] at he
      exact he.symm
    · left
      rw [if_neg hk] at he
      exact he ▸ hq
  · rcases List.mem_append.mp h with h1 | h1
    · exact Or.inl h1
    · exact Or.inr (List.mem_singleton.mp h1)

/-! ## Claim theorems -/

/-- Claim C1: for every agent identifier, `build_mcp_servers` returns (with
no error) a mapping whose key sequence is exactly the baseline filesystem
and memory followed by the extras listed for that identifier in
`AGENT_MCPS` (empty when absent), with the baseline always present and no
duplicate keys. -/
theorem capability_resolver_keys (a : String) :
    ∃ s, build_mcp_servers a = some s ∧
      s.map Prod.fst = ["filesystem", "memory"] ++ agentExtras a ∧
      (s.map Prod.fst).Nodup ∧
      "filesystem" ∈ s.map Prod.fst ∧ "memory" ∈ s.map Prod.fst := by
  obtain ⟨s, h1, h2, h3⟩ := build_mcp_servers_spec a
  exact ⟨s, h1, by simpa using h2, h3, by rw [h2]; simp, by rw [h2]; simp⟩

/-- Claim C2: running `process_agents` a second time on the directory
produced by the first run, and a third time on the directory produced by
the second, yields identical written records and documentation files on
the second and third runs. -/
theorem pipeline_idempotent (es : List (String × Agent)) :
    (process_agents ((process_agents es).1)).2 =
      (process_agents ((process_agents ((process_agents es).1)).1)).2 := by
  show (writtenRecords (newDirectory es), skillFiles (newDirectory es)) =
    (writtenRecords (newDirectory (newDirectory es)),
     skillFiles (newDirectory (newDirectory es)))
  rw [newDirectory_idem]

/-- Claim C3: the prompt summarizer returns the curated brief string when
the identifier is a key of `BRIEF_PROMPTS`, and otherwise exactly the
first 200 characters of the original prompt (the whole prompt when it has
at most 200 characters). -/
theorem prompt_summarizer_spec (a p : String) :
    (∀ b, List.lookup a BRIEF_PROMPTS = some b → brief_prompt a p = b) ∧
    (List.lookup a BRIEF_PROMPTS = none →
      brief_prompt a p = strSlice p 200 ∧
      (p.length ≤ 200 → brief_prompt a p = p)) := by
  constructor
  · intro b hb
    unfold brief_prompt
    rw [hb]
    rfl
  · intro h
    constructor
    · unfold brief_prompt
      rw [h]
      rfl
    · intro hlen
      unfold brief_prompt
      rw [h]
      show strSlice p 200 = p
      unfold strSlice
      rw [List.take_of_length_le (by exact hlen)]

theorem prompt_summarizer_spec_witness :
    brief_prompt "code-reviewer" "original prompt text" =
      "You are a senior engineer reviewing for security, architecture, and unnecessary complexity. Follow the detailed guidelines in your skill resource." ∧
    brief_prompt "no-such-agent" "original prompt text" =
      strSlice "original prompt text" 200 ∧
    brief_prompt "no-such-agent" "original prompt text" =
      "original prompt text" :=
  ⟨(prompt_summarizer_spec "code-reviewer" "original prompt text").1 _
     (by decide),
   ((prompt_summarizer_spec "no-such-agent" "original prompt text").2
     (by decide)).1,
   ((prompt_summarizer_spec "no-such-agent" "original prompt text").2
     (by decide)).2 (by decide)⟩

/-- Claim C4: the rewritten record carries exactly the fields of the
`updated_agent` dict: name, description, tools and allowedTools copied
from the input, the summarized prompt, `includeMcpJson` always false, the
resolved server mapping, and exactly the two resource locators (the
steering glob and the per-agent SKILL.md reference). -/
theorem record_rewriter_fields (a : String) (rec : Agent) :
    (update_agent a rec).name = rec.name ∧
    (update_agent a rec).description = rec.description ∧
    (update_agent a rec).tools = rec.tools ∧
    (update_agent a rec).allowedTools = rec.allowedTools ∧
    (update_agent a rec).prompt = brief_prompt a rec.prompt ∧
    (update_agent a rec).includeMcpJson = false ∧
    (update_agent a rec).mcpServers = mcpServersOf a ∧
    (update_agent a rec).resources =
      ["file://.kiro/steering/**/*.md",
       "skill://.kiro/skills/" ++ a ++ "/SKILL.md"] :=
  ⟨rfl, rfl, rfl, rfl, rfl, rfl, rfl, rfl⟩

/-- Claim C6: every MCP name listed in any value of `AGENT_MCPS` is a key
of `MCP_SERVERS`, so the descriptor-table lookups in the extras loop of
`build_mcp_servers` never fault, for any agent identifier. -/
theorem extras_lookups_total :
    (∀ e ∈ AGENT_MCPS, ∀ m ∈ e.2,
      (List.lookup m MCP_SERVERS).isSome = true) ∧
    (∀ a m, m ∈ agentExtras a →
      (List.lookup m MCP_SERVERS).isSome = true) := by
  constructor
  · decide
  · intro a m hm
    exact (extras_ok a).2.2.2 m hm

theorem extras_lookups_total_witness :
    (List.lookup "context7" MCP_SERVERS).isSome = true :=
  extras_lookups_total.2 "typescript-test-engineer" "context7" (by decide)

/-- Claim C7: the documentation file is the fixed-format header carrying
the name and description followed by the full original prompt, which
therefore occurs verbatim as a contiguous substring. -/
theorem skill_md_contains_prompt (rec : Agent) :
    skill_content rec =
      "---\nname: " ++ rec.name ++ "\ndescription: " ++ rec.description
        ++ "\n---\n\n" ++ rec.prompt ++ "\n" ∧
    ∃ pre post, skill_content rec = pre ++ rec.prompt ++ post :=
  ⟨rfl, "---\nname: " ++ rec.name ++ "\ndescription: "
    ++ rec.description ++ "\n---\n\n", "\n", rfl⟩

/-- Claim C8: the resolved mapping for "typescript-test-engineer" holds
the two baseline servers plus exactly context7, sequential-thinking,
puppeteer and playwright, and nothing else. -/
theorem typescript_test_engineer_servers :
    (build_mcp_servers "typescript-test-engineer").map (List.map Prod.fst) =
      some ["filesystem", "memory", "context7", "sequential-thinking",
            "puppeteer", "playwright"] := by decide

/-- Claim C9: a directory entry whose filename does not end in ".json" is
skipped entirely: it passes through unchanged and contributes neither a
written record nor a documentation file. -/
theorem non_json_skipped (fn : String) (rec : Agent)
    (es : List (String × Agent)) (h : isJsonFile fn = false) :
    process_agents ((fn, rec) :: es) =
      ((fn, rec) :: (process_agents es).1,
       (process_agents es).2.1, (process_agents es).2.2) := by
  unfold process_agents newDirectory writtenRecords skillFiles stepRecord
  simp [h]

theorem non_json_skipped_witness :
    isJsonFile "README.md" = false ∧
    process_agents [("README.md", ⟨"n", "d", "p", [], []⟩)] =
      ([("README.md", ⟨"n", "d", "p", [], []⟩)], [], []) :=
  ⟨by decide,
   non_json_skipped "README.md" ⟨"n", "d", "p", [], []⟩ [] (by decide)⟩

/-- Claim C10: the agent identifier removes every occurrence of ".json"
from the filename, so a filename containing ".json" other than as its
final suffix gets an identifier different from its stem, which changes the
resource locator and the documentation path. -/
theorem agent_identifier_replaces_all :
    agent_name_of "a.json.json" = "a" ∧
    stem_of "a.json.json" = "a.json" ∧
    agent_name_of "a.json.json" ≠ stem_of "a.json.json" ∧
    agent_name_of "a.jsonx.json" = "ax" ∧
    stem_of "a.jsonx.json" = "a.jsonx" ∧
    agent_name_of "a.jsonx.json" ≠ stem_of "a.jsonx.json" ∧
    (update_agent (agent_name_of "a.json.json")
        ⟨"n", "d", "p", [], []⟩).resources =
      ["file://.kiro/steering/**/*.md", "skill://.kiro/skills/a/SKILL.md"] ∧
    skillFiles [("a.json.json", ⟨"n", "d", "p", [], []⟩)] =
      [("a", generate_skill_md "n" "d" "p")] := by decide

namespace Alias

/-- Inverting one successful iteration of the extras loop: the store only
grows its env counter, the args heap is untouched, and the inserted
descriptor copies the command and args reference of the table entry while
its env reference is absent or freshly allocated. -/
lemma insertServerRef_spec {srv : List (String × SrvObj)} {st : Store}
    {m : String} {srv2 : List (String × SrvObj)} {st2 : Store}
    (h : insertServerRef srv st m = some (srv2, st2)) :
    st.nextEnv ≤ st2.nextEnv ∧ st2.argsHeap = st.argsHeap ∧
    ∃ d o, List.lookup m MCP_SERVERS_refs = some d ∧
      srv2 = dictInsert m o srv ∧ o.command = d.command ∧
      o.argsRef = d.argsRef ∧
      (o.envRef = none ∨
        ∃ r, o.envRef = some r ∧ st.nextEnv ≤ r ∧ r < st2.nextEnv) := by
  unfold insertServerRef at h
  cases hd : List.lookup m MCP_SERVERS_refs with
  | none => rw [hd] at h; exact absurd h (by simp)
  | some d =>
    simp only [hd] at h
    cases he : d.envRef with
    | none =>
      simp only [he] at h
      obtain ⟨h1, h2⟩ := Prod.mk.injEq .. ▸ Option.some.inj h
      subst h1 h2
      exact ⟨le_refl _, rfl, d, d, rfl, rfl, rfl, rfl, Or.inl he⟩
    | some r =>
      simp only [he] at h
      obtain ⟨h1, h2⟩ := Prod.mk.injEq .. ▸ Option.some.inj h
      subst h1 h2
      refine ⟨Nat.le_succ _, rfl, d, _, rfl, rfl, rfl, rfl,
        Or.inr ⟨st.nextEnv, rfl, le_refl _, Nat.lt_succ_self _⟩⟩

/-- Invariant of the whole extras loop: every entry of the resulting dict
was already in the accumulator, or copies the command and args reference
of its table entry and carries no env reference or one freshly allocated
during this loop. -/
lemma foldExtras_spec :
    ∀ (l : List String) (srv : List (String × SrvObj)) (st : Store)
      (out : List (String × SrvObj)) (stF : Store),
      foldExtras l srv st = some (out, stF) →
      st.nextEnv ≤ stF.nextEnv ∧
      ∀ k o, (k, o) ∈ out →
        ((k, o) ∈ srv ∨
          ∃ d, List.lookup k MCP_SERVERS_refs = some d ∧
            o.command = d.command ∧ o.argsRef = d.argsRef ∧
            (o.envRef = none ∨
              ∃ r, o.envRef = some r ∧ st.nextEnv ≤ r ∧ r < stF.nextEnv)) := by
  intro l
  induction l with
  | nil =>
    intro srv st out stF h
    obtain ⟨h1, h2⟩ := Prod.mk.injEq .. ▸ Option.some.inj h
    subst h1 h2
    exact ⟨le_refl _, fun k o hk => Or.inl hk⟩
  | cons m l ih =>
    intro srv st out stF h
    unfold foldExtras at h
    cases hstep : insertServerRef srv st m with
    | none => rw [hstep] at h; exact absurd h (by simp)
    | some p =>
      obtain ⟨srv2, st2⟩ := p
      simp only [hstep] at h
      obtain ⟨hle2, hargs2, d, o, hd, hsrv2, hcmd, hargs, henv⟩ :=
        insertServerRef_spec hstep
      obtain ⟨hleF, hmem⟩ := ih srv2 st2 out stF h
      refine ⟨le_trans hle2 hleF, ?_⟩
      intro k ob hk
      rcases hmem k ob hk with hin2 | ⟨d2, hd2, hc2, ha2, he2⟩
      · rw [hsrv2] at hin2
        rcases mem_dictInsert hin2 with hin | heq
        · exact Or.inl hin
        · obtain ⟨hk1, hk2⟩ := Prod.mk.injEq .. ▸ heq
          subst hk1
          subst hk2
          refine Or.inr ⟨d, hd, hcmd, hargs, ?_⟩
          rcases henv with h0 | ⟨r, hr, hr1, hr2⟩
          · exact Or.inl h0
          · exact Or.inr ⟨r, hr, hr1, lt_of_lt_of_le hr2 hleF⟩
      · refine Or.inr ⟨d2, hd2, hc2, ha2, ?_⟩
        rcases he2 with h0 | ⟨r, hr, hr1, hr2⟩
        · exact Or.inl h0
        · exact Or.inr ⟨r, hr, le_trans hle2 hr1, hr2⟩

/-- The two baseline entries resolve to themselves in the table and carry
no env reference. -/
lemma baseRefs_mem :
    ∀ p ∈ ([("filesystem", (⟨"npx", 0, none⟩ : SrvObj)),
            ("memory", (⟨"npx", 1, none⟩ : SrvObj))] :
        List (String × SrvObj)),
      List.lookup p.1 MCP_SERVERS_refs = some p.2 ∧ p.2.envRef = none := by
  decide

/-- All env references held by the static table are below 2. -/
lemma static_env_refs_small :
    ∀ p ∈ MCP_SERVERS_refs, ∀ r, p.2.envRef = some r → r < 2 := by
  decide

/-- Every entry of a successful `build_mcp_servers_refs` result copies the
command and args reference of its table entry, with an env reference that
is absent or freshly allocated during that build. -/
lemma build_refs_members {a : String} {st : Store}
    {s : List (String × SrvObj)} {stF : Store}
    (h : build_mcp_servers_refs a st = some (s, stF)) :
    st.nextEnv ≤ stF.nextEnv ∧
    ∀ k o, (k, o) ∈ s →
      ∃ d, List.lookup k MCP_SERVERS_refs = some d ∧
        o.command = d.command ∧ o.argsRef = d.argsRef ∧
        (o.envRef = none ∨
          ∃ r, o.envRef = some r ∧ st.nextEnv ≤ r ∧ r < stF.nextEnv) := by
  have h2 : foldExtras (agentExtras a)
      [("filesystem", (⟨"npx", 0, none⟩ : SrvObj)),
       ("memory", (⟨"npx", 1, none⟩ : SrvObj))] st = some (s, stF) := h
  obtain ⟨hle, hmem⟩ := foldExtras_spec _ _ _ _ _ h2
  refine ⟨hle, ?_⟩
  intro k o hk
  rcases hmem k o hk with hbase | hnew
  · obtain ⟨hlk, henv⟩ := baseRefs_mem _ hbase
    exact ⟨o, hlk, rfl, rfl, Or.inl henv⟩
  · exact hnew

/-- Claim C5 counterexample: the shallow `.copy()` shares the args list
object.  For the agents "devops-engineer" and "documentation-engineer",
the "context7" descriptors of both agents and of the static table hold
the same args reference, so an in-place mutation performed through the
first result is observed through the second: the claim that mutating any
part of one descriptor (including its argument list) cannot change
another is false. -/
theorem shallow_copy_shares_args :
    ∃ sA st1 sB st2 oA oB oT,
      build_mcp_servers_refs "devops-engineer" initStore = some (sA, st1) ∧
      build_mcp_servers_refs "documentation-engineer" st1 = some (sB, st2) ∧
      List.lookup "context7" sA = some oA ∧
      List.lookup "context7" sB = some oB ∧
      List.lookup "context7" MCP_SERVERS_refs = some oT ∧
      oA.argsRef = oB.argsRef ∧ oA.argsRef = oT.argsRef ∧
      (writeArgs st2 oA.argsRef ["mutated"]).argsHeap oB.argsRef =
        ["mutated"] ∧
      st2.argsHeap oB.argsRef ≠ ["mutated"] := by
  refine ⟨[("filesystem", ⟨"npx", 0, none⟩), ("memory", ⟨"npx", 1, none⟩),
           ("context7", ⟨"npx", 2, none⟩), ("playwright", ⟨"npx", 5, none⟩)],
    initStore,
    [("filesystem", ⟨"npx", 0, none⟩), ("memory", ⟨"npx", 1, none⟩),
     ("context7", ⟨"npx", 2, none⟩)],
    initStore, ⟨"npx", 2, none⟩, ⟨"npx", 2, none⟩, ⟨"npx", 2, none⟩,
    rfl, rfl, rfl, rfl, rfl, rfl, rfl, rfl, ?_⟩
  decide

/-- Claim C5 amended: the descriptor record and its env mapping are
independent copies — env references of two sequentially built agents are
pairwise distinct and never alias a static-table env object — but the
args reference of every descriptor is shared with the static table entry,
so in-place mutation of an argument list is visible across agents. -/
theorem shallow_copy_amended (a b : String)
    (sA sB : List (String × SrvObj)) (st1 st2 : Store)
    (hA : build_mcp_servers_refs a initStore = some (sA, st1))
    (hB : build_mcp_servers_refs b st1 = some (sB, st2)) :
    (∀ k o k2 o2 r r2, (k, o) ∈ sA → (k2, o2) ∈ sB →
      o.envRef = some r → o2.envRef = some r2 → r ≠ r2) ∧
    (∀ k o r, ((k, o) ∈ sA ∨ (k, o) ∈ sB) → o.envRef = some r →
      ∀ kT oT, (kT, oT) ∈ MCP_SERVERS_refs → oT.envRef ≠ some r) ∧
    (∀ k o, ((k, o) ∈ sA ∨ (k, o) ∈ sB) →
      ∃ oT, List.lookup k MCP_SERVERS_refs = some oT ∧
        o.argsRef = oT.argsRef ∧ o.command = oT.command) := by
  obtain ⟨hleA, hmemA⟩ := build_refs_members hA
  obtain ⟨hleB, hmemB⟩ := build_refs_members hB
  have h2 : initStore.nextEnv = 2 := rfl
  have envA : ∀ k o r, (k, o) ∈ sA → o.envRef = some r →
      2 ≤ r ∧ r < st1.nextEnv := by
    intro k o r hk hr
    rcases hmemA k o hk with ⟨d, _, _, _, hnone | ⟨r2, hr2, hlow, hhigh⟩⟩
    · exact absurd (hnone ▸ hr) (by simp)
    · obtain he := Option.some.inj (hr2 ▸ hr)
      exact ⟨h2 ▸ he ▸ hlow, he ▸ hhigh⟩
  have envB : ∀ k o r, (k, o) ∈ sB → o.envRef = some r →
      st1.nextEnv ≤ r ∧ r < st2.nextEnv := by
    intro k o r hk hr
    rcases hmemB k o hk with ⟨d, _, _, _, hnone | ⟨r2, hr2, hlow, hhigh⟩⟩
    · exact absurd (hnone ▸ hr) (by simp)
    · obtain he := Option.some.inj (hr2 ▸ hr)
      exact ⟨he ▸ hlow, he ▸ hhigh⟩
  refine ⟨?_, ?_, ?_⟩
  · intro k o k2 o2 r r2 hkA hkB hr hr2
    have h1 := envA k o r hkA hr
    have hb := envB k2 o2 r2 hkB hr2
    exact Nat.ne_of_lt (lt_of_lt_of_le h1.2 hb.1)
  · intro k o r hor hr kT oT hT hc
    have hsmall := static_env_refs_small (kT, oT) hT r hc
    have h2le : 2 ≤ r := by
      rcases hor with hA2 | hB2
      · exact (envA k o r hA2 hr).1
      · exact le_trans (h2 ▸ hleA) (envB k o r hB2 hr).1
    exact absurd hsmall (Nat.not_lt.mpr h2le)
  · intro k o hor
    rcases hor with hA2 | hB2
    · obtain ⟨d, hd, hc, ha, _⟩ := hmemA k o hA2
      exact ⟨d, hd, ha, hc⟩
    · obtain ⟨d, hd, hc, ha, _⟩ := hmemB k o hB2
      exact ⟨d, hd, ha, hc⟩

theorem shallow_copy_amended_witness :
    ∃ sA st1 sB st2,
      build_mcp_servers_refs "data-scientist" initStore = some (sA, st1) ∧
      build_mcp_servers_refs "python-backend" st1 = some (sB, st2) ∧
      (∀ k o k2 o2 r r2, (k, o) ∈ sA → (k2, o2) ∈ sB →
        o.envRef = some r → o2.envRef = some r2 → r ≠ r2) := by
  obtain ⟨sA, st1, hA⟩ : ∃ sA st1,
      build_mcp_servers_refs "data-scientist" initStore = some (sA, st1) :=
    ⟨_, _, rfl⟩
  obtain ⟨sB, st2, hB⟩ : ∃ sB st2,
      build_mcp_servers_refs "python-backend" st1 = some (sB, st2) :=
    ⟨_, _, rfl⟩
  exact ⟨sA, st1, sB, st2, hA, hB,
    (shallow_copy_amended _ _ _ _ _ _ hA hB).1⟩

end Alias
